import Mathlib

/-!
Verification of the build/watch orchestrator of the WYcreative starter
repository.

The development shallowly embeds two source units:

* `gulp/guide.js` — the design-guide build task (`build`): glob the fragment
  files, splice out the `index` file, read `package.json`, dynamically import
  every fragment with a cache-busting `?t=<Date.now()>` query, merge the
  exports into one aggregate keyed by base name, hand the aggregate to the
  external render collaborator (errors caught and logged), then call `done()`.
* the watch entry point (`build` with display name `watch`) — the route table
  binding glob patterns to gulp compositions, where every route except the
  styles route wraps its build step in `series(step, reload)`.

The gulp combinators `series`/`parallel` and the styles task body live outside
the repository snapshot, so their semantics are modelled from the spec where
noted.
-/

/-! ## JavaScript string primitives (modelled on `node:path/posix` and
`String.prototype.includes`), written as structural recursions over
character lists so that every definition evaluates by `rfl`/`decide`. -/

/-- Test `isPrefixList pat s`: true when `pat` is a prefix of `s`
(character-by-character). -/
def isPrefixList : List Char → List Char → Bool
  | [], _ => true
  | _ :: _, [] => false
  | a :: as, b :: bs => a == b && isPrefixList as bs

/-- Test `hasSub hay pat`: `pat` occurs as a contiguous substring of `hay`
(the semantics of JavaScript `hay.includes(pat)`). -/
def hasSub : List Char → List Char → Bool
  | [], pat => pat.isEmpty
  | h :: t, pat => isPrefixList pat (h :: t) || hasSub t pat

/-- JavaScript `s.includes(pat)`. -/
def jsIncludes (s pat : String) : Bool :=
  hasSub s.data pat.data

/-- The characters of the last `/`-separated segment of a path
(the segment `node:path/posix` `basename` starts from). -/
def afterLastSep (cs : List Char) : List Char :=
  cs.foldl (fun acc c => if c == '/' then [] else acc ++ [c]) []

/-- Model of `node:path/posix` `extname`: the suffix of the last segment starting at its
last dot; empty when the segment has no dot or is a dotfile (its only dot is
the leading character). -/
def extname (p : String) : String :=
  let seg := afterLastSep p.data
  let pre := seg.reverse.takeWhile (fun c => c != '.')
  if pre.length == seg.length then ""
  else if seg.length == pre.length + 1 then ""
  else String.mk ('.' :: pre.reverse)

/-- Test `endsWithList s suf`: `suf` is a suffix of `s`. -/
def endsWithList (s suf : List Char) : Bool :=
  isPrefixList suf.reverse s.reverse

/-- Model of `node:path/posix` `basename(p, extname(p))` as used in `guide.js`: the last
segment of `p` with its extension stripped (Node keeps the extension when it
equals the whole segment). -/
def basenameNoExt (p : String) : String :=
  let seg := afterLastSep p.data
  let ext := (extname p).data
  if ext.isEmpty || ext == seg || !endsWithList seg ext then String.mk seg
  else String.mk (seg.take (seg.length - ext.length))

/-- Model of `node:path/posix` `join('..', file)` for the relative file paths produced
by `globbySync` (no normalization is needed for such inputs). -/
def joinUp (file : String) : String :=
  "../" ++ file

/-- The dynamic-import specifier built in `guide.js`:
`` `${join('..', file)}?t=${Date.now()}` `` with `path = join('..', file)`
and `t` the `Date.now()` reading. -/
def specOf (path : String) (t : Nat) : String :=
  path ++ "?t=" ++ toString t

/-! ## `Array.prototype.findIndex` and `Array.prototype.splice` -/

/-- JavaScript `files.findIndex(p)`: index of the first element satisfying
`p`, and `-1` when none does. -/
def findIndexJs (p : String → Bool) : List String → Int
  | [] => -1
  | fl :: rest =>
    if p fl then 0
    else
      let r := findIndexJs p rest
      if r < 0 then -1 else r + 1

/-- Line 15 of `guide.js`:
`files.splice(files.findIndex(file => file.includes('index')), 1)[0]`.
Returns the remaining list together with `[0]` of the removed slice (`none`
models JavaScript `undefined`).  `splice` clamps a negative start index to
`length + start` (so `-1` addresses the last element) and removes at most one
element. -/
def spliceFoundIndex (files0 : List String) : List String × Option String :=
  let i := findIndexJs (fun fl => jsIncludes fl "index") files0
  let len := files0.length
  let start : Nat := if i < 0 then ((len : Int) + i).toNat else min i.toNat len
  let deleteCount := min 1 (len - start)
  (files0.take start ++ files0.drop (start + deleteCount),
   ((files0.drop start).take deleteCount).head?)

/-! ## JavaScript values and object property assignment -/

/-- A JavaScript value as needed by the guide aggregate: either an opaque
non-object value (`atom`, indexed by a natural so that distinct module
evaluations are distinguishable) or an object with an ordered field list. -/
inductive JVal where
  | atom (n : Nat)
  | obj (fields : List (String × JVal))

/-- First-match lookup in an object's field list (JavaScript property read). -/
def lookupField : List (String × JVal) → String → Option JVal
  | [], _ => none
  | (k0, v0) :: rest, k => if k0 == k then some v0 else lookupField rest k

/-- JavaScript property assignment on a field list: overwrite the existing
field in place, or append a new one. -/
def setFieldList : List (String × JVal) → String → JVal → List (String × JVal)
  | [], k, v => [(k, v)]
  | (k0, v0) :: rest, k, v =>
    if k0 == k then (k0, v) :: rest else (k0, v0) :: setFieldList rest k v

/-- Property read `o[k]` (reading on a non-object yields no field here). -/
def JVal.getField : JVal → String → Option JVal
  | .atom _, _ => none
  | .obj fs, k => lookupField fs k

/-- Property write `o[k] = v` (`guide[key] = value` in `guide.js`).
`guide.js` is an ES module and therefore strict-mode code: assigning a
property on a primitive base throws a TypeError; on an object the field is
set in place or appended. -/
def JVal.setField : JVal → String → JVal → Except String JVal
  | .atom _, _, _ => .error "TypeError: cannot create property on a primitive"
  | .obj fs, k, v => .ok (.obj (setFieldList fs k v))

/-! ## The guide-build task (`build` in `gulp/guide.js`) -/

/-- The ES-module cache: evaluated modules keyed by their full import
specifier (path plus `?t=` query). -/
abbrev Cache := List (String × JVal)

/-- The collaborators of `build` in `guide.js`:
`globbySync(config.guide)`, `JSON.parse(readFileSync('./package.json'))`,
fresh evaluation of the module at a (joined) path against the current disk
contents, the external `generateGuide` collaborator (here applied to the
package and the aggregate; `config` and the destination are opaque ambient
values), and the successive `Date.now()` readings. -/
structure GuideEnv where
  globResult : Except String (List String)
  pkgResult : Except String JVal
  evalFile : String → Except String JVal
  render : JVal → JVal → Except String Unit
  clock : Nat → Nat

/-- Dynamic `import(specOf path t)` against the module cache: a specifier
already in the cache is answered from the cache without re-evaluating the
file; otherwise the file is evaluated freshly and the result is cached under
the full specifier. -/
def importFresh (ev : String → Except String JVal) (cache : Cache)
    (path : String) (t : Nat) : Except String (JVal × Cache) :=
  match cache.find? (fun en => en.1 == specOf path t) with
  | some en => .ok (en.2, cache)
  | none =>
    match ev path with
    | .error msg => .error msg
    | .ok v => .ok (v, cache ++ [(specOf path t, v)])

/-- The `for (const file of files)` loop of `guide.js`: import each remaining
fragment in list order (each with its own `Date.now()` reading) and assign its
default export onto the aggregate under the file's base name.  The state
threads the aggregate, the module cache, the clock call counter, and the trace
of performed imports (joined path and time tag, in order). -/
def loadFragments (env : GuideEnv) :
    List String → JVal → Cache → Nat → List (String × Nat) →
    Except String (JVal × Cache × Nat × List (String × Nat))
  | [], guide, cache, k, tr => .ok (guide, cache, k, tr)
  | file :: rest, guide, cache, k, tr =>
    match importFresh env.evalFile cache (joinUp file) (env.clock k) with
    | .error msg => .error msg
    | .ok (value, cache2) =>
      match guide.setField (basenameNoExt file) value with
      | .error msg => .error msg
      | .ok guide2 =>
        loadFragments env rest guide2 cache2 (k + 1)
          (tr ++ [(joinUp file, env.clock k)])

/-- Observable outcome of one `build` invocation: the propagated error if the
async function threw, the number of `done()` calls, the imports performed (in
order), the render error logged by the `catch` block (if any), the aggregate
handed to the render collaborator, and the final module cache and clock
counter.  On a thrown error the partially updated cache/trace are not
tracked (no claim consults them). -/
structure BuildOutcome where
  result : Except String Unit
  doneCalls : Nat
  importTrace : List (String × Nat)
  renderErrorLogged : Option String
  guide : Option JVal
  cache : Cache
  clockIdx : Nat

/-- Embedding of `build(done)` of `gulp/guide.js`, step for step:
globbing (may throw), the `findIndex`/`splice` of the index file, reading and
parsing `package.json` (may throw), importing the index module with a
`?t=<Date.now()>` query (with `join('..', undefined)` throwing a `TypeError`
when the splice removed nothing), the fragment loop, the `try`/`catch` around
`generateGuide` (error logged, not propagated), and the final `done()`. -/
def build (env : GuideEnv) (cache0 : Cache) (k0 : Nat) : BuildOutcome :=
  match env.globResult with
  | .error msg => ⟨.error msg, 0, [], none, none, cache0, k0⟩
  | .ok files0 =>
    let spliced := spliceFoundIndex files0
    match env.pkgResult with
    | .error msg => ⟨.error msg, 0, [], none, none, cache0, k0⟩
    | .ok pkg =>
      match spliced.2 with
      | none =>
        ⟨.error "TypeError: the path argument must be of type string",
         0, [], none, none, cache0, k0⟩
      | some indexFile =>
        match importFresh env.evalFile cache0 (joinUp indexFile) (env.clock k0) with
        | .error msg => ⟨.error msg, 0, [], none, none, cache0, k0⟩
        | .ok (guide0, cache1) =>
          match loadFragments env spliced.1 guide0 cache1 (k0 + 1)
              [(joinUp indexFile, env.clock k0)] with
          | .error msg => ⟨.error msg, 0, [], none, none, cache1, k0 + 1⟩
          | .ok (guide, cache2, k2, tr) =>
            match env.render pkg guide with
            | .error msg => ⟨.ok (), 1, tr, some msg, some guide, cache2, k2⟩
            | .ok _ => ⟨.ok (), 1, tr, none, some guide, cache2, k2⟩

/-! ## Specifier bookkeeping used to state freshness of one invocation -/

/-- The import specifiers the fragment loop would use, starting at clock call
`k`: one per file, in order, each with its own clock reading. -/
def fragSpecs (clock : Nat → Nat) : List String → Nat → List String
  | [], _ => []
  | fl :: rest, k => specOf (joinUp fl) (clock k) :: fragSpecs clock rest (k + 1)

/-- All import specifiers of one `build` invocation starting at clock call
`k0`: the index module first, then the fragments. -/
def runSpecs (clock : Nat → Nat) (k0 : Nat) (indexFile : String)
    (others : List String) : List String :=
  specOf (joinUp indexFile) (clock k0) :: fragSpecs clock others (k0 + 1)

/-- The cache entries a fully fresh fragment loop appends, in order. -/
def fragEntries (clock : Nat → Nat) (f : String → JVal) :
    List String → Nat → Cache
  | [], _ => []
  | fl :: rest, k =>
    (specOf (joinUp fl) (clock k), f (joinUp fl)) :: fragEntries clock f rest (k + 1)

/-- The import trace the fragment loop records, in order. -/
def fragTrace (clock : Nat → Nat) : List String → Nat → List (String × Nat)
  | [], _ => []
  | fl :: rest, k => (joinUp fl, clock k) :: fragTrace clock rest (k + 1)

/-! ## Composition nodes and the watch route table (the watch entry point) -/

/-- A gulp composition node: a leaf task (identified by its registry name), a
`series(...)` of children, or a `parallel(...)` of children. -/
inductive Comp where
  | task (name : String)
  | series (cs : List Comp)
  | parallel (cs : List Comp)

/-- One scheduling event of a composition run: a task body is invoked
(`start`), signals successful completion (`finish`), or signals failure
(`fail`). -/
inductive Event where
  | start (name : String)
  | finish (name : String)
  | fail (name : String)
deriving DecidableEq

/-- Modelled from the spec: the gulp `series`/`parallel` scheduler is not part
of the repository snapshot (gulp is an external dependency), so a run is
modelled from §4.1/§5 of the spec.  `runComp out c` returns the event trace of
one run of `c` (each leaf's body outcome given by `out`) and the run's result:
a leaf runs its body and signals; `series` runs children strictly in order and
stops at the first failure, which becomes the composition's error; `parallel`
runs all children (one legal interleaving of the concurrent children is
recorded), completes when all have completed, and fails iff some child failed
(with the first failing child's error).  Empty compositions complete
immediately and successfully. -/
def runComp (out : String → Except String Unit) : Comp → List Event × Except String Unit
  | .task n =>
    match out n with
    | .ok _ => ([.start n, .finish n], .ok ())
    | .error e => ([.start n, .fail n], .error e)
  | .series [] => ([], .ok ())
  | .series (c :: cs) =>
    match runComp out c with
    | (tr, .error e) => (tr, .error e)
    | (tr, .ok _) =>
      match runComp out (.series cs) with
      | (tr2, r2) => (tr ++ tr2, r2)
  | .parallel [] => ([], .ok ())
  | .parallel (c :: cs) =>
    match runComp out c, runComp out (.parallel cs) with
    | (tr1, r1), (tr2, r2) =>
      (tr1 ++ tr2, match r1 with | .error e => .error e | .ok _ => r2)

/-- Whether an event is an invocation of the reload notifier's body
(`reload` from `browser.js`). -/
def isReloadStart : Event → Bool
  | .start n => n == "reload"
  | .finish _ => false
  | .fail _ => false

/-- Number of reload notify calls in one run's trace. -/
def notifyCount (tr : List Event) : Nat :=
  tr.countP isReloadStart

/-- The leaf-outcome assignment of a run in which every task body succeeds. -/
def okOut : String → Except String Unit :=
  fun _ => .ok ()

/-- A leaf-outcome assignment in which the fonts build step fails and every
other body (in particular `reload`) succeeds. -/
def fontsFail : String → Except String Unit :=
  fun n => if n == "fonts.build" then .error "boom" else .ok ()

/-- A route of the watch entry point: the watched glob pattern (an opaque
configuration value, named after the config expression in the source) and the
composition run on a matching change event. -/
structure Route where
  pattern : String
  comp : Comp

/-- Modelled from the spec: `styles.js` is not part of the repository
snapshot; §8 of the spec maps the styles route to
`series(compileStyles, optimizeStyles)`.  Note the reload notifier is not part
of this composition. -/
def stylesBuild : Comp :=
  .series [.task "compileStyles", .task "optimizeStyles"]

/-- Route `watch(config.src.styles, styles.build)` — the one route whose composition
is the bare styles build, not wrapped in `series(..., reload)`. -/
def stylesRoute : Route := ⟨"config.src.styles", stylesBuild⟩

/-- Route `watch(config.src.fonts, series(fonts.build, reload))`. -/
def fontsRoute : Route :=
  ⟨"config.src.fonts", .series [.task "fonts.build", .task "reload"]⟩

/-- Route `watch(config.src.symbols, series(symbols.build, reload))`. -/
def symbolsRoute : Route :=
  ⟨"config.src.symbols", .series [.task "symbols.build", .task "reload"]⟩

/-- Route `watch(config.src.images, series(images.build, reload))`. -/
def imagesRoute : Route :=
  ⟨"config.src.images", .series [.task "images.build", .task "reload"]⟩

/-- Route `watch(config.libs, series(libs.build, reload))`. -/
def libsRoute : Route :=
  ⟨"config.libs", .series [.task "libs.build", .task "reload"]⟩

/-- Route `watch(config.src.scripts, series(scripts.build, reload))`. -/
def scriptsRoute : Route :=
  ⟨"config.src.scripts", .series [.task "scripts.build", .task "reload"]⟩

/-- Route `watch(config.src.views[0], series(parallel(views.build, guide.build), reload))`. -/
def viewsRoute : Route :=
  ⟨"config.src.views[0]",
   .series [.parallel [.task "views.build", .task "guide.build"], .task "reload"]⟩

/-- Route `watch(config.guide, series(guide.build, reload))`. -/
def guideWatchRoute : Route :=
  ⟨"config.guide", .series [.task "guide.build", .task "reload"]⟩

/-- The route table registered by the watch entry point (`build`, display name
`watch`), one entry per `watch(...)` call, in source order. -/
def watchRoutes : List Route :=
  [stylesRoute, fontsRoute, symbolsRoute, imagesRoute,
   libsRoute, scriptsRoute, viewsRoute, guideWatchRoute]

/-- The trace and result of running a series of leaf tasks in order, stopping
at the first failure (the closed form `runComp` takes on
`series(task n1, ..., task nK)`). -/
def tasksTrace (out : String → Except String Unit) :
    List String → List Event × Except String Unit
  | [] => ([], .ok ())
  | n :: rest =>
    match out n with
    | .error e => ([.start n, .fail n], .error e)
    | .ok _ =>
      match tasksTrace out rest with
      | (tr, r) => (.start n :: .finish n :: tr, r)

/-- The single assignment step of the fragment loop at the field-list level
(`guide[key] = value` for one file, the value being the file's freshly
evaluated default export; the base is known to be an object). -/
def setStepFields (F : String → JVal) (fs : List (String × JVal)) (fl : String) :
    List (String × JVal) :=
  setFieldList fs (basenameNoExt fl) (F fl)

/-! ## Concrete scenarios used by the witnesses -/

/-- Disk contents of the canonical fragment scenario: the index module
exports an object with one base field; `button.js` and `card.js` export
distinct opaque values. -/
def diskA : String → JVal := fun p =>
  if p == "../src/guide/index.js" then .obj [("base", .atom 0)]
  else if p == "../src/guide/button.js" then .atom 1
  else if p == "../src/guide/card.js" then .atom 2
  else .atom 99

/-- Disk contents after editing `button.js` on disk (its evaluation changes
from `atom 1` to `atom 41`). -/
def diskB : String → JVal := fun p =>
  if p == "../src/guide/index.js" then .obj [("base", .atom 0)]
  else if p == "../src/guide/button.js" then .atom 41
  else if p == "../src/guide/card.js" then .atom 2
  else .atom 99

/-- Disk contents of the duplicate-basename scenario: two fragment files both
have base name `button`; the later one's export is `atom 22`. -/
def diskC : String → JVal := fun p =>
  if p == "../g/index.js" then .obj []
  else if p == "../a/button.js" then .atom 21
  else if p == "../b/button.js" then .atom 22
  else .atom 99

/-- The matched fragment file list of the canonical scenario. -/
def filesA : List String :=
  ["src/guide/index.js", "src/guide/button.js", "src/guide/card.js"]

/-- A glob result in which no path contains the token `index`. -/
def filesNoIndex : List String :=
  ["src/guide/button.js", "src/guide/card.js"]

/-- Environment of the first canonical invocation. -/
def envA : GuideEnv :=
  { globResult := .ok filesA
    pkgResult := .ok (.atom 7)
    evalFile := fun p => .ok (diskA p)
    render := fun _ _ => .ok ()
    clock := fun j => j }

/-- Environment of a second invocation after the edit; the clock has moved
on, so every new `Date.now()` reading differs from the first run's. -/
def envB : GuideEnv :=
  { globResult := .ok filesA
    pkgResult := .ok (.atom 7)
    evalFile := fun p => .ok (diskB p)
    render := fun _ _ => .ok ()
    clock := fun j => 100 + j }

/-- Environment whose glob collaborator throws. -/
def envGlobBoom : GuideEnv :=
  { envA with globResult := .error "glob boom" }

/-- Environment whose `package.json` read throws. -/
def envPkgBoom : GuideEnv :=
  { envA with pkgResult := .error "pkg boom" }

/-- Disk contents of the no-index scenario: the spliced-out last file
(`card.js`) exports an object, the remaining fragment a primitive. -/
def diskD : String → JVal := fun p =>
  if p == "../src/guide/button.js" then .atom 1
  else if p == "../src/guide/card.js" then .obj [("cardBase", .atom 5)]
  else .atom 99

/-- Environment with no index file among the matches (object base export). -/
def envNoIndex : GuideEnv :=
  { globResult := .ok filesNoIndex
    pkgResult := .ok (.atom 7)
    evalFile := fun p => .ok (diskD p)
    render := fun _ _ => .ok ()
    clock := fun j => j }

/-- Environment with no index file whose spliced-out last file exports a
primitive while another matched file remains: the strict-mode assignment
`guide[key] = value` then throws. -/
def envPrimitiveBase : GuideEnv :=
  { globResult := .ok ["a.js", "b.js"]
    pkgResult := .ok (.atom 7)
    evalFile := fun p => .ok (if p == "../a.js" then .atom 1 else .atom 2)
    render := fun _ _ => .ok ()
    clock := fun j => j }

/-- Leaf outcomes in which the task named `beta` fails and every other
leaf succeeds. -/
def betaFail : String → Except String Unit :=
  fun n => if n == "beta" then .error "boom" else .ok ()

/-! ## Helper lemmas about objects and folded assignments -/

theorem lookupField_setFieldList (fs : List (String × JVal)) (k k2 : String) (v : JVal) :
    lookupField (setFieldList fs k v) k2 =
      if k = k2 then some v else lookupField fs k2 := by
  induction fs with
  | nil => simp [setFieldList, lookupField]
  | cons hd tl ih =>
    obtain ⟨k0, v0⟩ := hd
    by_cases h0 : k0 = k
    · subst h0
      by_cases h2 : k0 = k2 <;> simp [setFieldList, lookupField, h2]
    · have h0b : (k0 == k) = false := by simpa using h0
      by_cases h2 : k0 = k2
      · subst h2
        have hk : ¬ k = k0 := fun h => h0 h.symm
        simp [setFieldList, h0b, lookupField, hk]
      · have h2b : (k0 == k2) = false := by simpa using h2
        simp [setFieldList, h0b, lookupField, h2b, ih]

theorem getField_obj (fs : List (String × JVal)) (k : String) :
    (JVal.obj fs).getField k = lookupField fs k := rfl

theorem foldSetFields_lookup (F : String → JVal) (k : String) :
    ∀ (fs : List String) (acc : List (String × JVal)),
      lookupField (fs.foldl (setStepFields F) acc) k =
        match fs.reverse.find? (fun fl => basenameNoExt fl == k) with
        | some fl => some (F fl)
        | none => lookupField acc k := by
  intro fs
  induction fs with
  | nil =>
    intro acc
    simp
  | cons fl tl ih =>
    intro acc
    rw [List.foldl_cons]
    have hstep : setStepFields F acc fl =
        setFieldList acc (basenameNoExt fl) (F fl) := rfl
    rw [hstep, ih, List.reverse_cons, List.find?_append]
    cases htl : tl.reverse.find? (fun fl2 => basenameNoExt fl2 == k) with
    | some fl2 => simp
    | none =>
      by_cases hbk : basenameNoExt fl = k
      · simp [lookupField_setFieldList, hbk]
      · have hbkb : (basenameNoExt fl == k) = false := by simpa using hbk
        simp [lookupField_setFieldList, hbk, hbkb, List.find?]

theorem joinUp_inj {a b : String} (h : joinUp a = joinUp b) : a = b := by
  have hd : ("../" : String).data ++ a.data = ("../" : String).data ++ b.data := by
    have h2 := congrArg String.data h
    simpa [joinUp, String.data_append] using h2
  exact String.ext (List.append_cancel_left hd)

/-! ## Helper lemmas about `findIndex` and the splice -/

theorem findIndexJs_eq_neg_one {p : String → Bool} :
    ∀ {l : List String}, (∀ fl ∈ l, p fl = false) → findIndexJs p l = -1 := by
  intro l
  induction l with
  | nil => intro _; rfl
  | cons fl tl ih =>
    intro h
    have h0 : p fl = false := h fl (by simp)
    have h1 : findIndexJs p tl = -1 := ih (fun x hx => h x (by simp [hx]))
    simp [findIndexJs, h0, h1]

theorem findIndexJs_lt_length {p : String → Bool} :
    ∀ {l : List String} {i : Nat}, findIndexJs p l = (i : Int) → i < l.length := by
  intro l
  induction l with
  | nil =>
    intro i h
    simp [findIndexJs] at h
  | cons fl tl ih =>
    intro i h
    by_cases h0 : p fl
    · simp [findIndexJs, h0] at h
      simp only [List.length_cons]
      omega
    · simp [findIndexJs, h0] at h
      by_cases hr : findIndexJs p tl < 0
      · simp [hr] at h
      · simp [hr] at h
        have h2 : findIndexJs p tl = ((i - 1 : Nat) : Int) := by omega
        have h3 := ih h2
        simp only [List.length_cons]
        omega

theorem splice_found {files0 : List String} {i : Nat}
    (hfind : findIndexJs (fun fl => jsIncludes fl "index") files0 = (i : Int)) :
    spliceFoundIndex files0 =
      (files0.take i ++ files0.drop (i + 1), some (files0.getD i "")) := by
  have hlt : i < files0.length := findIndexJs_lt_length hfind
  unfold spliceFoundIndex
  rw [hfind]
  have hneg : ¬ ((i : Int) < 0) := by omega
  have htn : (i : Int).toNat = i := Int.toNat_ofNat i
  simp only [hneg, if_false, htn]
  have hmin : min i files0.length = i := min_eq_left (le_of_lt hlt)
  have hdc : min 1 (files0.length - i) = 1 := min_eq_left (by omega)
  rw [hmin, hdc]
  have hdrop : files0.drop i = files0[i] :: files0.drop (i + 1) :=
    List.drop_eq_getElem_cons hlt
  have hrem : ((files0.drop i).take 1).head? = some (files0.getD i "") := by
    rw [hdrop, List.getD_eq_getElem files0 "" hlt]
    rfl
  rw [hrem]

theorem splice_none {files0 : List String}
    (hno : ∀ fl ∈ files0, jsIncludes fl "index" = false) (hne : files0 ≠ []) :
    spliceFoundIndex files0 =
      (files0.dropLast, some (files0.getD (files0.length - 1) "")) := by
  have hlen : 0 < files0.length := List.length_pos.mpr hne
  have hfind : findIndexJs (fun fl => jsIncludes fl "index") files0 = -1 :=
    findIndexJs_eq_neg_one hno
  unfold spliceFoundIndex
  rw [hfind]
  have hneg : ((-1 : Int) < 0) := by omega
  simp only [hneg, if_true]
  have htn : ((files0.length : Int) + -1).toNat = files0.length - 1 := by omega
  rw [htn]
  have hdc : min 1 (files0.length - (files0.length - 1)) = 1 := min_eq_left (by omega)
  rw [hdc]
  have hlt : files0.length - 1 < files0.length := by omega
  have hdrop : files0.drop (files0.length - 1) =
      files0[files0.length - 1] :: files0.drop (files0.length - 1 + 1) :=
    List.drop_eq_getElem_cons hlt
  have hfull : files0.length - 1 + 1 = files0.length := by omega
  have hrem : ((files0.drop (files0.length - 1)).take 1).head? =
      some (files0.getD (files0.length - 1) "") := by
    rw [hdrop, List.getD_eq_getElem files0 "" hlt]
    rfl
  rw [hrem, hfull, List.drop_length, List.append_nil, List.dropLast_eq_take]

/-! ## Helper lemmas about the fragment loop and `build` -/

theorem loadFragments_fresh (env : GuideEnv) (f : String → JVal)
    (hev : env.evalFile = fun p => .ok (f p)) :
    ∀ (fs : List String) (acc : List (String × JVal)) (cache : Cache) (k : Nat)
      (tr : List (String × Nat)),
      (fragSpecs env.clock fs k).Nodup →
      (∀ s ∈ fragSpecs env.clock fs k, ∀ en ∈ cache, en.1 ≠ s) →
      loadFragments env fs (.obj acc) cache k tr =
        .ok (.obj (fs.foldl (setStepFields (fun fl => f (joinUp fl))) acc),
             cache ++ fragEntries env.clock f fs k,
             k + fs.length,
             tr ++ fragTrace env.clock fs k) := by
  intro fs
  induction fs with
  | nil =>
    intro acc cache k tr _ _
    simp [loadFragments, fragEntries, fragTrace]
  | cons fl rest ih =>
    intro acc cache k tr hnd hnc
    have hnd2 : (fragSpecs env.clock (fl :: rest) k).Nodup := hnd
    rw [fragSpecs] at hnd2
    have hnds := List.nodup_cons.mp hnd2
    have hfind : cache.find? (fun en => en.1 == specOf (joinUp fl) (env.clock k)) = none := by
      rw [List.find?_eq_none]
      intro en hen
      have := hnc (specOf (joinUp fl) (env.clock k)) (by rw [fragSpecs]; exact List.mem_cons_self _ _) en hen
      simpa using this
    have himp : importFresh env.evalFile cache (joinUp fl) (env.clock k) =
        .ok (f (joinUp fl),
             cache ++ [(specOf (joinUp fl) (env.clock k), f (joinUp fl))]) := by
      simp [importFresh, hfind, hev]
    have hset : (JVal.obj acc).setField (basenameNoExt fl) (f (joinUp fl)) =
        .ok (.obj (setFieldList acc (basenameNoExt fl) (f (joinUp fl)))) := rfl
    rw [loadFragments, himp]
    dsimp only
    rw [hset]
    dsimp only
    have hnc2 : ∀ s ∈ fragSpecs env.clock rest (k + 1),
        ∀ en ∈ cache ++ [(specOf (joinUp fl) (env.clock k), f (joinUp fl))], en.1 ≠ s := by
      intro s hs en hen
      rcases List.mem_append.mp hen with hen1 | hen2
      · exact hnc s (by rw [fragSpecs]; exact List.mem_cons_of_mem _ hs) en hen1
      · have : en = (specOf (joinUp fl) (env.clock k), f (joinUp fl)) := by simpa using hen2
        subst this
        intro hcontra
        have hc2 : specOf (joinUp fl) (env.clock k) = s := hcontra
        subst hc2
        exact hnds.1 hs
    rw [ih _ _ _ _ hnds.2 hnc2]
    simp [fragEntries, fragTrace, setStepFields, List.append_assoc]
    omega

theorem loadFragments_err (env : GuideEnv) (f : String → JVal) (bad e : String)
    (hev : ∀ p, p ≠ joinUp bad → env.evalFile p = .ok (f p))
    (hbad : env.evalFile (joinUp bad) = .error e) :
    ∀ (fs : List String) (acc : List (String × JVal)) (cache : Cache) (k : Nat)
      (tr : List (String × Nat)),
      bad ∈ fs →
      (fragSpecs env.clock fs k).Nodup →
      (∀ s ∈ fragSpecs env.clock fs k, ∀ en ∈ cache, en.1 ≠ s) →
      loadFragments env fs (.obj acc) cache k tr = .error e := by
  intro fs
  induction fs with
  | nil =>
    intro acc cache k tr hmem
    exact absurd hmem (List.not_mem_nil bad)
  | cons fl rest ih =>
    intro acc cache k tr hmem hnd hnc
    have hnd2 : (fragSpecs env.clock (fl :: rest) k).Nodup := hnd
    rw [fragSpecs] at hnd2
    have hnds := List.nodup_cons.mp hnd2
    have hfind : cache.find? (fun en => en.1 == specOf (joinUp fl) (env.clock k)) = none := by
      rw [List.find?_eq_none]
      intro en hen
      have := hnc (specOf (joinUp fl) (env.clock k)) (by rw [fragSpecs]; exact List.mem_cons_self _ _) en hen
      simpa using this
    by_cases hfl : fl = bad
    · subst hfl
      have himp : importFresh env.evalFile cache (joinUp fl) (env.clock k) = .error e := by
        simp [importFresh, hfind, hbad]
      rw [loadFragments, himp]
    · have hne : joinUp fl ≠ joinUp bad := fun h => hfl (joinUp_inj h)
      have himp : importFresh env.evalFile cache (joinUp fl) (env.clock k) =
          .ok (f (joinUp fl),
               cache ++ [(specOf (joinUp fl) (env.clock k), f (joinUp fl))]) := by
        simp [importFresh, hfind, hev _ hne]
      have hset : (JVal.obj acc).setField (basenameNoExt fl) (f (joinUp fl)) =
          .ok (.obj (setFieldList acc (basenameNoExt fl) (f (joinUp fl)))) := rfl
      rw [loadFragments, himp]
      dsimp only
      rw [hset]
      dsimp only
      have hmem2 : bad ∈ rest := by
        rcases List.mem_cons.mp hmem with h | h
        · exact absurd h.symm hfl
        · exact h
      have hnc2 : ∀ s ∈ fragSpecs env.clock rest (k + 1),
          ∀ en ∈ cache ++ [(specOf (joinUp fl) (env.clock k), f (joinUp fl))], en.1 ≠ s := by
        intro s hs en hen
        rcases List.mem_append.mp hen with hen1 | hen2
        · exact hnc s (by rw [fragSpecs]; exact List.mem_cons_of_mem _ hs) en hen1
        · have : en = (specOf (joinUp fl) (env.clock k), f (joinUp fl)) := by simpa using hen2
          subst this
          intro hcontra
          have hc2 : specOf (joinUp fl) (env.clock k) = s := hcontra
          subst hc2
          exact hnds.1 hs
      exact ih _ _ _ _ hmem2 hnds.2 hnc2

theorem build_ok_spec (files0 others : List String) (indexFile : String)
    (f : String → JVal) (base : List (String × JVal)) (pkg : JVal)
    (rnd : JVal → JVal → Except String Unit)
    (clock : Nat → Nat) (cache0 : Cache) (k0 : Nat)
    (hsplit : spliceFoundIndex files0 = (others, some indexFile))
    (hobj : f (joinUp indexFile) = .obj base)
    (hnd : (runSpecs clock k0 indexFile others).Nodup)
    (hnc : ∀ s ∈ runSpecs clock k0 indexFile others, ∀ en ∈ cache0, en.1 ≠ s) :
    build ⟨.ok files0, .ok pkg, fun p => .ok (f p), rnd, clock⟩ cache0 k0 =
      { result := .ok ()
        doneCalls := 1
        importTrace := (joinUp indexFile, clock k0) :: fragTrace clock others (k0 + 1)
        renderErrorLogged :=
          match rnd pkg (.obj (others.foldl
              (setStepFields (fun fl => f (joinUp fl))) base)) with
          | .error msg => some msg
          | .ok _ => none
        guide := some (.obj (others.foldl
          (setStepFields (fun fl => f (joinUp fl))) base))
        cache := cache0 ++
          (specOf (joinUp indexFile) (clock k0), f (joinUp indexFile)) ::
            fragEntries clock f others (k0 + 1)
        clockIdx := k0 + 1 + others.length } := by
  have hds := List.nodup_cons.mp (by rw [runSpecs] at hnd; exact hnd)
  have hfind0 : cache0.find?
      (fun en => en.1 == specOf (joinUp indexFile) (clock k0)) = none := by
    rw [List.find?_eq_none]
    intro en hen
    have := hnc (specOf (joinUp indexFile) (clock k0))
      (by rw [runSpecs]; exact List.mem_cons_self _ _) en hen
    simpa using this
  have himp0 : importFresh (fun p => Except.ok (f p)) cache0 (joinUp indexFile) (clock k0) =
      .ok (f (joinUp indexFile),
           cache0 ++ [(specOf (joinUp indexFile) (clock k0), f (joinUp indexFile))]) := by
    simp [importFresh, hfind0]
  have hnc2 : ∀ s ∈ fragSpecs clock others (k0 + 1),
      ∀ en ∈ cache0 ++ [(specOf (joinUp indexFile) (clock k0), f (joinUp indexFile))],
        en.1 ≠ s := by
    intro s hs en hen
    rcases List.mem_append.mp hen with hen1 | hen2
    · exact hnc s (by rw [runSpecs]; exact List.mem_cons_of_mem _ hs) en hen1
    · have : en = (specOf (joinUp indexFile) (clock k0), f (joinUp indexFile)) := by
        simpa using hen2
      subst this
      intro hcontra
      have hc2 : specOf (joinUp indexFile) (clock k0) = s := hcontra
      subst hc2
      exact hds.1 hs
  have hload := loadFragments_fresh
    ⟨.ok files0, .ok pkg, fun p => .ok (f p), rnd, clock⟩ f rfl others base
    (cache0 ++ [(specOf (joinUp indexFile) (clock k0), f (joinUp indexFile))])
    (k0 + 1) [(joinUp indexFile, clock k0)] hds.2 hnc2
  rw [hobj] at hload
  rw [build]
  dsimp only
  rw [hsplit]
  dsimp only
  rw [himp0]
  dsimp only
  rw [hobj, hload]
  dsimp only
  cases hr : rnd pkg (.obj (others.foldl
      (setStepFields (fun fl => f (joinUp fl))) base)) with
  | error msg =>
    simp [hr, List.append_assoc]
  | ok u =>
    simp [hr, List.append_assoc]

/-! ## Helper lemmas about series runs -/

theorem run_series_tasks (out : String → Except String Unit) :
    ∀ ns : List String, runComp out (.series (ns.map .task)) = tasksTrace out ns := by
  intro ns
  induction ns with
  | nil => simp [runComp, tasksTrace]
  | cons n rest ih =>
    cases ho : out n with
    | error e => simp [runComp, tasksTrace, ho]
    | ok u => simp [runComp, tasksTrace, ho, ih]

theorem tasksTrace_ordering (out : String → Except String Unit) :
    ∀ ns : List String, ns.Nodup →
      ∀ i : Nat, i + 1 < ns.length →
        Event.start (ns.getD (i + 1) "") ∈ (tasksTrace out ns).1 →
        List.Sublist [Event.finish (ns.getD i ""), Event.start (ns.getD (i + 1) "")]
          (tasksTrace out ns).1 := by
  intro ns
  induction ns with
  | nil =>
    intro _ i hi
    simp at hi
  | cons n rest ih =>
    intro hnd i hi hmem
    have hnds := List.nodup_cons.mp hnd
    have hmemrest : ∀ j, j < rest.length → rest.getD j "" ∈ rest := by
      intro j hj
      rw [List.getD_eq_getElem _ _ hj]
      exact List.getElem_mem hj
    have hlen : i < rest.length := by simpa using hi
    have hgd : (n :: rest).getD (i + 1) "" = rest.getD i "" := by
      simp [List.getD_cons_succ]
    have hne : rest.getD i "" ≠ n := by
      intro h
      exact hnds.1 (h ▸ hmemrest i hlen)
    cases ho : out n with
    | error e =>
      have htr : tasksTrace out (n :: rest) = ([.start n, .fail n], .error e) := by
        rw [tasksTrace, ho]
      rw [htr] at hmem ⊢
      rw [hgd] at hmem
      exfalso
      simp only [List.mem_cons, List.not_mem_nil, or_false] at hmem
      rcases hmem with h | h
      · exact hne (by injection h)
      · exact absurd h (by simp)
    | ok u =>
      rcases htt : tasksTrace out rest with ⟨tr, r⟩
      have htr : tasksTrace out (n :: rest) = (.start n :: .finish n :: tr, r) := by
        rw [tasksTrace, ho, htt]
      rw [htr] at hmem ⊢
      rw [hgd] at hmem ⊢
      have hmem2 : Event.start (rest.getD i "") ∈ tr := by
        simp only [List.mem_cons] at hmem
        rcases hmem with h | h | h
        · exact absurd (by injection h) hne
        · exact absurd h (by simp)
        · exact h
      cases i with
      | zero =>
        have hgd0 : (n :: rest).getD 0 "" = n := by simp
        rw [hgd0]
        exact .cons _ (.cons₂ _ (List.singleton_sublist.mpr hmem2))
      | succ j =>
        have hgdj : (n :: rest).getD (j + 1) "" = rest.getD j "" := by
          simp [List.getD_cons_succ]
        rw [hgdj]
        have hlen2 : j + 1 < rest.length := hlen
        have hsub := ih hnds.2 j hlen2 (by rw [htt]; exact hmem2)
        rw [htt] at hsub
        exact .cons _ (.cons _ hsub)

theorem tasksTrace_failure (out : String → Except String Unit) :
    ∀ ns : List String, ns.Nodup →
      ∀ (k : Nat) (e : String), k < ns.length →
        (∀ j, j < k → out (ns.getD j "") = .ok ()) →
        out (ns.getD k "") = .error e →
        (tasksTrace out ns).2 = .error e ∧
          ∀ j, j < ns.length → k < j →
            Event.start (ns.getD j "") ∉ (tasksTrace out ns).1 := by
  intro ns
  induction ns with
  | nil =>
    intro _ k e hk
    simp at hk
  | cons n rest ih =>
    intro hnd k e hk hprev herr
    have hnds := List.nodup_cons.mp hnd
    have hmemrest : ∀ j, j < rest.length → rest.getD j "" ∈ rest := by
      intro j hj
      rw [List.getD_eq_getElem _ _ hj]
      exact List.getElem_mem hj
    cases k with
    | zero =>
      have herr0 : out n = .error e := by simpa using herr
      have htr : tasksTrace out (n :: rest) = ([.start n, .fail n], .error e) := by
        rw [tasksTrace, herr0]
      rw [htr]
      refine ⟨rfl, ?_⟩
      intro j hj hj0 hmem
      have hgd : (n :: rest).getD j "" = rest.getD (j - 1) "" := by
        cases j with
        | zero => omega
        | succ j2 => simp [List.getD_cons_succ]
      rw [hgd] at hmem
      have hlenj : j - 1 < rest.length := by
        have h3 : j < rest.length + 1 := by simpa using hj
        omega
      have hne : rest.getD (j - 1) "" ≠ n := by
        intro h
        exact hnds.1 (h ▸ hmemrest (j - 1) hlenj)
      simp only [List.mem_cons, List.not_mem_nil, or_false] at hmem
      rcases hmem with h | h
      · exact hne (by injection h)
      · exact absurd h (by simp)
    | succ k2 =>
      have hok : out n = .ok () := by
        have h0 := hprev 0 (by omega)
        simpa using h0
      rcases htt : tasksTrace out rest with ⟨tr, r⟩
      have htr : tasksTrace out (n :: rest) = (.start n :: .finish n :: tr, r) := by
        rw [tasksTrace, hok, htt]
      have hprev2 : ∀ j, j < k2 → out (rest.getD j "") = .ok () := by
        intro j hj
        have h0 := hprev (j + 1) (by omega)
        simpa [List.getD_cons_succ] using h0
      have herr2 : out (rest.getD k2 "") = .error e := by
        simpa [List.getD_cons_succ] using herr
      have hk2 : k2 < rest.length := by simpa using hk
      have hih := ih hnds.2 k2 e hk2 hprev2 herr2
      rw [htt] at hih
      rw [htr]
      refine ⟨hih.1, ?_⟩
      intro j hj hjk hmem
      have hgd : (n :: rest).getD j "" = rest.getD (j - 1) "" := by
        cases j with
        | zero => omega
        | succ j2 => simp [List.getD_cons_succ]
      rw [hgd] at hmem
      have hlenj : j - 1 < rest.length := by
        have h3 : j < rest.length + 1 := by simpa using hj
        omega
      have hne : rest.getD (j - 1) "" ≠ n := by
        intro h
        exact hnds.1 (h ▸ hmemrest (j - 1) hlenj)
      simp only [List.mem_cons] at hmem
      rcases hmem with h | h | h
      · exact hne (by injection h)
      · exact absurd h (by simp)
      · exact hih.2 (j - 1) hlenj (by omega) h

/-! ## Helper lemmas about keyed lookup in the aggregate -/

theorem find_key_unique (fl : String) :
    ∀ l : List String, (l.map basenameNoExt).Nodup → fl ∈ l →
      l.find? (fun x => basenameNoExt x == basenameNoExt fl) = some fl := by
  intro l
  induction l with
  | nil =>
    intro _ hfl
    cases hfl
  | cons a t ih =>
    intro hbn hfl
    rw [List.map_cons] at hbn
    have hnd2 := List.nodup_cons.mp hbn
    rcases List.mem_cons.mp hfl with h1 | h1
    · subst h1
      simp [List.find?]
    · have hbfl : basenameNoExt fl ∈ t.map basenameNoExt :=
        List.mem_map_of_mem _ h1
      have hne : (basenameNoExt a == basenameNoExt fl) = false := by
        simp only [beq_eq_false_iff_ne]
        intro hcontra
        exact hnd2.1 (hcontra ▸ hbfl)
      rw [List.find?_cons_of_neg _ (by simp [hne]), ih hnd2.2 h1]

theorem find_key_unique_reverse (fl : String) (l : List String)
    (hbn : (l.map basenameNoExt).Nodup) (hfl : fl ∈ l) :
    l.reverse.find? (fun x => basenameNoExt x == basenameNoExt fl) = some fl := by
  apply find_key_unique
  · rw [List.map_reverse]
    exact List.nodup_reverse.mpr hbn
  · exact List.mem_reverse.mpr hfl

theorem find_key_none (k2 : String) (l : List String)
    (hk : k2 ∉ l.map basenameNoExt) :
    l.reverse.find? (fun x => basenameNoExt x == k2) = none := by
  rw [List.find?_eq_none]
  intro x hx
  simp only [beq_iff_eq]
  intro hcontra
  exact hk (hcontra ▸ List.mem_map_of_mem _ (List.mem_reverse.mp hx))

theorem fragTrace_map_fst (clock : Nat → Nat) :
    ∀ (fs : List String) (k : Nat),
      (fragTrace clock fs k).map Prod.fst = fs.map joinUp := by
  intro fs
  induction fs with
  | nil => intro k; rfl
  | cons fl rest ih =>
    intro k
    simp [fragTrace, ih]

theorem importFresh_total (f : String → JVal) (cache : Cache) (path : String) (t : Nat) :
    ∃ v c2, importFresh (fun p => .ok (f p)) cache path t = .ok (v, c2) := by
  cases hfind : cache.find? (fun en => en.1 == specOf path t) with
  | some en => exact ⟨en.2, cache, by simp [importFresh, hfind]⟩
  | none =>
    exact ⟨f path, cache ++ [(specOf path t, f path)], by simp [importFresh, hfind]⟩

/-! ## Claims -/

/-- C1 (counterexample): the claim "every Route registered by the watch entry
point triggers exactly one reload notify per completed run" is false at the
styles route, which is registered by the watch entry point but whose
composition contains no reload leaf: a successfully completed run of it
performs zero notify calls. -/
theorem c1_notify_once_per_route_cex :
    stylesRoute ∈ watchRoutes ∧
      notifyCount (runComp okOut stylesRoute.comp).1 ≠ 1 := by
  constructor
  · simp [watchRoutes]
  · simp [runComp, okOut, notifyCount, isReloadStart, stylesRoute, stylesBuild,
      List.countP_cons]

/-- C1 (amended): for every Route registered by the watch entry point other
than the styles Route, one successfully completed run of that Route's
composition triggers exactly one reload notify call, regardless of how many
leaves the composition contains. -/
theorem c1_notify_once_per_route (r : Route) (hr : r ∈ watchRoutes)
    (hns : r ≠ stylesRoute) :
    notifyCount (runComp okOut r.comp).1 = 1 := by
  fin_cases hr
  · exact absurd rfl hns
  all_goals
    simp [runComp, okOut, notifyCount, isReloadStart, fontsRoute, symbolsRoute,
      imagesRoute, libsRoute, scriptsRoute, viewsRoute, guideWatchRoute,
      List.countP_cons]

/-- C1 (witness): the fonts route is registered, differs from the styles
route, and a successful run of it notifies exactly once. -/
theorem c1_notify_once_per_route_witness :
    fontsRoute ∈ watchRoutes ∧ fontsRoute ≠ stylesRoute ∧
      notifyCount (runComp okOut fontsRoute.comp).1 = 1 := by
  refine ⟨by simp [watchRoutes], ?_, ?_⟩
  · intro h
    exact absurd (congrArg Route.pattern h) (by decide)
  · exact c1_notify_once_per_route fontsRoute (by simp [watchRoutes])
      (fun h => absurd (congrArg Route.pattern h) (by decide))

/-- C2 (counterexample): the claim that editing a styles source triggers the
styles Series "followed by exactly one reload notify" is false: a completed
run of the styles route's composition performs zero notify calls
(`watch(config.src.styles, styles.build)` has no reload in its composition). -/
theorem c2_styles_route_cex :
    notifyCount (runComp okOut stylesRoute.comp).1 = 0 := by
  simp [runComp, okOut, notifyCount, isReloadStart, stylesRoute, stylesBuild,
    List.countP_cons]

/-- C2 (amended): a change on the styles route triggers exactly one run of the
Series of the styles build steps, in order, and that run completes with no
reload notify at all. -/
theorem c2_styles_route_run :
    runComp okOut stylesRoute.comp =
      ([.start "compileStyles", .finish "compileStyles",
        .start "optimizeStyles", .finish "optimizeStyles"], .ok ()) ∧
      notifyCount (runComp okOut stylesRoute.comp).1 = 0 := by
  constructor
  · simp [runComp, stylesRoute, stylesBuild, okOut]
  · simp [runComp, okOut, notifyCount, isReloadStart, stylesRoute, stylesBuild,
      List.countP_cons]

/-- C3 (counterexample): the claim that reload is notified exactly once per
completed run "whether the run succeeded or failed" is false: a run of the
fonts route in which `fonts.build` fails completes in the failed state with
zero notify calls (the series aborts before reaching the reload leaf). -/
theorem c3_notify_regardless_cex :
    (runComp fontsFail fontsRoute.comp).2 = .error "boom" ∧
      notifyCount (runComp fontsFail fontsRoute.comp).1 = 0 := by
  constructor
  · simp [runComp, fontsRoute, fontsFail]
  · simp [runComp, fontsRoute, fontsFail, notifyCount, isReloadStart,
      List.countP_cons]

/-- C3 (amended): for every Route registered by the watch entry point whose
composition includes the reload leaf (all but the styles route), the reload
notify is invoked exactly once when the run succeeds and zero times when a
build step fails (the series aborts, suppressing the notify). -/
theorem c3_notify_success_only (r : Route) (hr : r ∈ watchRoutes.tail)
    (out : String → Except String Unit) (hrel : out "reload" = .ok ()) :
    notifyCount (runComp out r.comp).1 =
      match (runComp out r.comp).2 with
      | .ok _ => 1
      | .error _ => 0 := by
  fin_cases hr
  · cases hx : out "fonts.build" <;>
      simp [runComp, fontsRoute, hx, hrel, notifyCount, isReloadStart, List.countP_cons]
  · cases hx : out "symbols.build" <;>
      simp [runComp, symbolsRoute, hx, hrel, notifyCount, isReloadStart, List.countP_cons]
  · cases hx : out "images.build" <;>
      simp [runComp, imagesRoute, hx, hrel, notifyCount, isReloadStart, List.countP_cons]
  · cases hx : out "libs.build" <;>
      simp [runComp, libsRoute, hx, hrel, notifyCount, isReloadStart, List.countP_cons]
  · cases hx : out "scripts.build" <;>
      simp [runComp, scriptsRoute, hx, hrel, notifyCount, isReloadStart, List.countP_cons]
  · cases hx : out "views.build" <;> cases hy : out "guide.build" <;>
      simp [runComp, viewsRoute, hx, hy, hrel, notifyCount, isReloadStart, List.countP_cons]
  · cases hx : out "guide.build" <;>
      simp [runComp, guideWatchRoute, hx, hrel, notifyCount, isReloadStart, List.countP_cons]

/-- C3 (witness): at the fonts route with all bodies succeeding, the run
succeeds and notifies exactly once. -/
theorem c3_notify_success_only_witness :
    fontsRoute ∈ watchRoutes.tail ∧ okOut "reload" = .ok () ∧
      notifyCount (runComp okOut fontsRoute.comp).1 =
        match (runComp okOut fontsRoute.comp).2 with
        | .ok _ => 1
        | .error _ => 0 := by
  exact ⟨by simp [watchRoutes], rfl,
    c3_notify_success_only fontsRoute (by simp [watchRoutes]) okOut rfl⟩

/-- C7: for every Series of N leaf tasks (as used by the watch routes), run
under any leaf-outcome assignment: (ordering) leaf i+1 never starts before
leaf i signals completion — whenever leaf i+1's start event is in the trace,
leaf i's completion event precedes it; and (failure) when the leaves before
position k succeed and leaf k fails with error e, the series fails with
exactly that error and no leaf after position k is ever started. -/
theorem c7_series_ordering (ns : List String) (out : String → Except String Unit)
    (hnd : ns.Nodup) :
    (∀ i : Nat, i + 1 < ns.length →
        Event.start (ns.getD (i + 1) "") ∈ (runComp out (.series (ns.map .task))).1 →
        List.Sublist [Event.finish (ns.getD i ""), Event.start (ns.getD (i + 1) "")]
          (runComp out (.series (ns.map .task))).1) ∧
    (∀ (k : Nat) (e : String), k < ns.length →
        (∀ j, j < k → out (ns.getD j "") = .ok ()) →
        out (ns.getD k "") = .error e →
        (runComp out (.series (ns.map .task))).2 = .error e ∧
          ∀ j, j < ns.length → k < j →
            Event.start (ns.getD j "") ∉ (runComp out (.series (ns.map .task))).1) := by
  rw [run_series_tasks]
  exact ⟨tasksTrace_ordering out ns hnd, tasksTrace_failure out ns hnd⟩

/-- C7 (witness): in the three-leaf series `alpha; beta; gamma` where `beta`
fails, the series fails with beta's error and `gamma` never starts. -/
theorem c7_series_ordering_witness :
    (["alpha", "beta", "gamma"] : List String).Nodup ∧
      betaFail "beta" = .error "boom" ∧
      (runComp betaFail (.series (["alpha", "beta", "gamma"].map .task))).2 =
        .error "boom" ∧
      Event.start "gamma" ∉
        (runComp betaFail (.series (["alpha", "beta", "gamma"].map .task))).1 := by
  have hnd : (["alpha", "beta", "gamma"] : List String).Nodup := by decide
  have h := (c7_series_ordering ["alpha", "beta", "gamma"] betaFail hnd).2 1 "boom"
    (by decide)
    (fun j hj => by interval_cases j; rfl)
    rfl
  exact ⟨hnd, rfl, h.1, h.2 2 (by decide) (by decide)⟩

/-- C4: a guide-build invocation over a matched list whose first
`index`-containing file sits at position `i` (the code's `findIndex`)
completes successfully, splices that file out, and produces an aggregate in
which every other matched file contributes a property keyed by its base name
without extension (holding that file's freshly evaluated default export),
while every other key falls through to the index module's exported object. -/
theorem c4_fragment_aggregate (files0 : List String) (i : Nat)
    (f : String → JVal) (base : List (String × JVal)) (pkg : JVal)
    (rnd : JVal → JVal → Except String Unit) (clock : Nat → Nat)
    (hfind : findIndexJs (fun fl => jsIncludes fl "index") files0 = (i : Int))
    (hnd : (runSpecs clock 0 (files0.getD i "")
      (files0.take i ++ files0.drop (i + 1))).Nodup)
    (hobj : f (joinUp (files0.getD i "")) = .obj base)
    (hbn : ((files0.take i ++ files0.drop (i + 1)).map basenameNoExt).Nodup) :
    (build ⟨.ok files0, .ok pkg, fun p => .ok (f p), rnd, clock⟩ [] 0).result = .ok () ∧
    (build ⟨.ok files0, .ok pkg, fun p => .ok (f p), rnd, clock⟩ [] 0).doneCalls = 1 ∧
    ∃ g, (build ⟨.ok files0, .ok pkg, fun p => .ok (f p), rnd, clock⟩ [] 0).guide = some g ∧
      (∀ fl ∈ files0.take i ++ files0.drop (i + 1),
        g.getField (basenameNoExt fl) = some (f (joinUp fl))) ∧
      (∀ k2, k2 ∉ (files0.take i ++ files0.drop (i + 1)).map basenameNoExt →
        g.getField k2 = lookupField base k2) := by
  have hsplit := splice_found hfind
  have hnc : ∀ s ∈ runSpecs clock 0 (files0.getD i "")
      (files0.take i ++ files0.drop (i + 1)), ∀ en ∈ ([] : Cache), en.1 ≠ s := by
    intro s _ en hen
    exact absurd hen (List.not_mem_nil en)
  have hb := build_ok_spec files0 (files0.take i ++ files0.drop (i + 1))
    (files0.getD i "") f base pkg rnd clock [] 0 hsplit hobj hnd hnc
  rw [hb]
  refine ⟨rfl, rfl, _, rfl, ?_, ?_⟩
  · intro fl hfl
    rw [getField_obj, foldSetFields_lookup, find_key_unique_reverse fl _ hbn hfl]
  · intro k2 hk2
    rw [getField_obj, foldSetFields_lookup, find_key_none k2 _ hk2]

/-- C4 (witness): for fragment files `index.js`, `button.js`, `card.js`, the
build succeeds and the aggregate holds keys `button` and `card` plus the base
field from `index.js`. -/
theorem c4_fragment_aggregate_witness :
    findIndexJs (fun fl => jsIncludes fl "index") filesA = ((0 : Nat) : Int) ∧
    (build envA [] 0).result = .ok () ∧
    ((build envA [] 0).guide.getD (.obj [])).getField "button" = some (.atom 1) ∧
    ((build envA [] 0).guide.getD (.obj [])).getField "card" = some (.atom 2) ∧
    ((build envA [] 0).guide.getD (.obj [])).getField "base" = some (.atom 0) := by
  have h := c4_fragment_aggregate filesA 0 diskA [("base", .atom 0)] (.atom 7)
    (fun _ _ => .ok ()) (fun j => j) (by decide) (by decide) rfl (by decide)
  obtain ⟨hres, hdone, g, hg, h1, h2⟩ := h
  refine ⟨by decide, hres, ?_, ?_, ?_⟩
  · have hb := h1 "src/guide/button.js" (by decide)
    rw [show (build envA [] 0).guide = some g from hg]
    exact hb
  · have hc := h1 "src/guide/card.js" (by decide)
    rw [show (build envA [] 0).guide = some g from hg]
    exact hc
  · have hg2 := h2 "base" (by decide)
    rw [show (build envA [] 0).guide = some g from hg]
    exact hg2

/-- C10: the guide-build imports the non-index fragments strictly in the order
of the matched file list (the import trace is the index module followed by the
others in list order), and the aggregate is keyed by base name with
last-assignment-wins semantics: a key's value is the freshly evaluated export
of the last matched file with that base name, and keys matching no file fall
through to the index export. -/
theorem c10_sequential_last_wins (files0 : List String) (i : Nat)
    (f : String → JVal) (base : List (String × JVal)) (pkg : JVal)
    (rnd : JVal → JVal → Except String Unit) (clock : Nat → Nat)
    (hfind : findIndexJs (fun fl => jsIncludes fl "index") files0 = (i : Int))
    (hnd : (runSpecs clock 0 (files0.getD i "")
      (files0.take i ++ files0.drop (i + 1))).Nodup)
    (hobj : f (joinUp (files0.getD i "")) = .obj base) :
    (build ⟨.ok files0, .ok pkg, fun p => .ok (f p), rnd, clock⟩ [] 0).importTrace.map
        Prod.fst =
      joinUp (files0.getD i "") :: (files0.take i ++ files0.drop (i + 1)).map joinUp ∧
    ∃ g, (build ⟨.ok files0, .ok pkg, fun p => .ok (f p), rnd, clock⟩ [] 0).guide = some g ∧
      ∀ k2, g.getField k2 =
        match (files0.take i ++ files0.drop (i + 1)).reverse.find?
            (fun fl => basenameNoExt fl == k2) with
        | some fl => some (f (joinUp fl))
        | none => lookupField base k2 := by
  have hsplit := splice_found hfind
  have hnc : ∀ s ∈ runSpecs clock 0 (files0.getD i "")
      (files0.take i ++ files0.drop (i + 1)), ∀ en ∈ ([] : Cache), en.1 ≠ s := by
    intro s _ en hen
    exact absurd hen (List.not_mem_nil en)
  have hb := build_ok_spec files0 (files0.take i ++ files0.drop (i + 1))
    (files0.getD i "") f base pkg rnd clock [] 0 hsplit hobj hnd hnc
  rw [hb]
  refine ⟨?_, _, rfl, ?_⟩
  · simp [fragTrace_map_fst]
  · intro k2
    rw [getField_obj, foldSetFields_lookup]

/-- C10 (witness): two fragment files share the base name `button`; the later
one's export wins, and the trace lists the imports in matched order. -/
theorem c10_sequential_last_wins_witness :
    findIndexJs (fun fl => jsIncludes fl "index")
        ["g/index.js", "a/button.js", "b/button.js"] = ((0 : Nat) : Int) ∧
    (build ⟨.ok ["g/index.js", "a/button.js", "b/button.js"], .ok (.atom 7),
        fun p => .ok (diskC p), fun _ _ => .ok (), fun j => j⟩ [] 0).importTrace.map
        Prod.fst = ["../g/index.js", "../a/button.js", "../b/button.js"] ∧
    ((build ⟨.ok ["g/index.js", "a/button.js", "b/button.js"], .ok (.atom 7),
        fun p => .ok (diskC p), fun _ _ => .ok (), fun j => j⟩ [] 0).guide.getD
        (.obj [])).getField "button" = some (.atom 22) := by
  have h := c10_sequential_last_wins ["g/index.js", "a/button.js", "b/button.js"] 0
    diskC [] (.atom 7) (fun _ _ => .ok ()) (fun j => j) (by decide) (by decide) rfl
  obtain ⟨htr, g, hg, hkey⟩ := h
  refine ⟨by decide, ?_, ?_⟩
  · exact htr
  · have hb := hkey "button"
    rw [show (build ⟨.ok ["g/index.js", "a/button.js", "b/button.js"], .ok (.atom 7),
        fun p => .ok (diskC p), fun _ _ => .ok (), fun j => j⟩ [] 0).guide = some g
      from hg]
    exact hb

/-- C8 (counterexample): the claim "the task raises no error" fails when the
spliced-out last file exports a primitive while another matched file remains:
no path contains `index`, yet the strict-mode assignment `guide[key] = value`
onto the primitive base throws a TypeError and `done()` is never called. -/
theorem c8_no_index_fallback_cex :
    (∀ fl ∈ ["a.js", "b.js"], jsIncludes fl "index" = false) ∧
    (build envPrimitiveBase [] 0).result =
      .error "TypeError: cannot create property on a primitive" ∧
    (build envPrimitiveBase [] 0).doneCalls = 0 := by
  refine ⟨by decide, rfl, rfl⟩

/-- C8 (amended): when no matched path contains `index` (the match list being
nonempty) and the spliced-out last file's default export is an object, the
task raises no error: `findIndex` returns `-1`, `splice(-1, 1)` removes the
last matched file, the build completes with one `done()` call, and that last
file's exported default silently becomes the aggregate's base value (keys not
claimed by the remaining fragments read from it); when that export is a
primitive and other matched files remain, the strict-mode assignment throws a
TypeError instead. -/
theorem c8_no_index_fallback (files0 : List String)
    (f : String → JVal) (base : List (String × JVal)) (pkg : JVal)
    (rnd : JVal → JVal → Except String Unit) (clock : Nat → Nat)
    (hne : files0 ≠ [])
    (hno : ∀ fl ∈ files0, jsIncludes fl "index" = false)
    (hobj : f (joinUp (files0.getD (files0.length - 1) "")) = .obj base)
    (hnd : (runSpecs clock 0 (files0.getD (files0.length - 1) "")
      files0.dropLast).Nodup) :
    findIndexJs (fun fl => jsIncludes fl "index") files0 = -1 ∧
    spliceFoundIndex files0 =
      (files0.dropLast, some (files0.getD (files0.length - 1) "")) ∧
    (build ⟨.ok files0, .ok pkg, fun p => .ok (f p), rnd, clock⟩ [] 0).result = .ok () ∧
    (build ⟨.ok files0, .ok pkg, fun p => .ok (f p), rnd, clock⟩ [] 0).doneCalls = 1 ∧
    ∃ g, (build ⟨.ok files0, .ok pkg, fun p => .ok (f p), rnd, clock⟩ [] 0).guide = some g ∧
      ∀ k2, k2 ∉ files0.dropLast.map basenameNoExt →
        g.getField k2 = (f (joinUp (files0.getD (files0.length - 1) ""))).getField k2 := by
  have hsplit := splice_none hno hne
  have hnc : ∀ s ∈ runSpecs clock 0 (files0.getD (files0.length - 1) "")
      files0.dropLast, ∀ en ∈ ([] : Cache), en.1 ≠ s := by
    intro s _ en hen
    exact absurd hen (List.not_mem_nil en)
  have hb := build_ok_spec files0 files0.dropLast
    (files0.getD (files0.length - 1) "") f base pkg rnd clock [] 0
    hsplit hobj hnd hnc
  refine ⟨findIndexJs_eq_neg_one hno, hsplit, ?_, ?_, ?_⟩
  · rw [hb]
  · rw [hb]
  · rw [hb]
    refine ⟨_, rfl, ?_⟩
    intro k2 hk2
    rw [getField_obj, foldSetFields_lookup, find_key_none k2 _ hk2, hobj,
      getField_obj]

/-- C8 (witness): for matches `button.js`, `card.js` (no index, `card.js`
exporting an object), the build succeeds, `card.js` is spliced out as the
base, and an unclaimed key reads from its export. -/
theorem c8_no_index_fallback_witness :
    filesNoIndex ≠ [] ∧
    (∀ fl ∈ filesNoIndex, jsIncludes fl "index" = false) ∧
    findIndexJs (fun fl => jsIncludes fl "index") filesNoIndex = -1 ∧
    spliceFoundIndex filesNoIndex =
      (["src/guide/button.js"], some "src/guide/card.js") ∧
    (build envNoIndex [] 0).result = .ok () ∧
    (build envNoIndex [] 0).doneCalls = 1 ∧
    ((build envNoIndex [] 0).guide.getD (.obj [])).getField "cardBase" =
      some (.atom 5) := by
  have h := c8_no_index_fallback filesNoIndex diskD [("cardBase", .atom 5)] (.atom 7)
    (fun _ _ => .ok ()) (fun j => j) (by decide) (by decide) rfl (by decide)
  obtain ⟨h1, h2, h3, h4, g, hg, h5⟩ := h
  refine ⟨by decide, by decide, h1, h2, h3, h4, ?_⟩
  rw [show (build envNoIndex [] 0).guide = some g from hg]
  exact h5 "cardBase" (by decide)

/-- C6: for every guide-build invocation that reaches the external render
collaborator (an index module is matched, its default export is an object,
and the run's freshly tagged import specifiers are new to the module cache)
and in which that collaborator throws, the task catches the error, logs it,
completes without propagating any failure, and still calls `done()` exactly
once — the enclosing composition never sees the failure, so the watch loop
continues. -/
theorem c6_render_failure_graceful (files0 : List String) (i : Nat)
    (f : String → JVal) (base : List (String × JVal)) (pkg : JVal)
    (clock : Nat → Nat) (msg : String) (cache0 : Cache) (k0 : Nat)
    (hfind : findIndexJs (fun fl => jsIncludes fl "index") files0 = (i : Int))
    (hobj : f (joinUp (files0.getD i "")) = .obj base)
    (hnd : (runSpecs clock k0 (files0.getD i "")
      (files0.take i ++ files0.drop (i + 1))).Nodup)
    (hnc : ∀ s ∈ runSpecs clock k0 (files0.getD i "")
      (files0.take i ++ files0.drop (i + 1)), ∀ en ∈ cache0, en.1 ≠ s) :
    (build ⟨.ok files0, .ok pkg, fun p => .ok (f p), fun _ _ => .error msg, clock⟩
        cache0 k0).result = .ok () ∧
    (build ⟨.ok files0, .ok pkg, fun p => .ok (f p), fun _ _ => .error msg, clock⟩
        cache0 k0).doneCalls = 1 ∧
    (build ⟨.ok files0, .ok pkg, fun p => .ok (f p), fun _ _ => .error msg, clock⟩
        cache0 k0).renderErrorLogged = some msg := by
  have hsplit := splice_found hfind
  have hb := build_ok_spec files0 (files0.take i ++ files0.drop (i + 1))
    (files0.getD i "") f base pkg (fun _ _ => .error msg) clock cache0 k0
    hsplit hobj hnd hnc
  rw [hb]
  exact ⟨rfl, rfl, rfl⟩

/-- C6 (witness): with a render collaborator that always throws, the build of
the canonical scenario still completes, calls `done()` once, and logs the
render error. -/
theorem c6_render_failure_graceful_witness :
    findIndexJs (fun fl => jsIncludes fl "index") filesA = ((0 : Nat) : Int) ∧
    (build ⟨.ok filesA, .ok (.atom 7), fun p => .ok (diskA p),
        fun _ _ => .error "render boom", fun j => j⟩ [] 0).result = .ok () ∧
    (build ⟨.ok filesA, .ok (.atom 7), fun p => .ok (diskA p),
        fun _ _ => .error "render boom", fun j => j⟩ [] 0).doneCalls = 1 ∧
    (build ⟨.ok filesA, .ok (.atom 7), fun p => .ok (diskA p),
        fun _ _ => .error "render boom", fun j => j⟩ [] 0).renderErrorLogged =
      some "render boom" := by
  have h := c6_render_failure_graceful filesA 0 diskA [("base", .atom 0)] (.atom 7)
    (fun j => j) "render boom" [] 0 (by decide) rfl (by decide) (by decide)
  exact ⟨by decide, h.1, h.2.1, h.2.2⟩

/-- C5: across two successive guide-build invocations (the second starting
from the first's module cache and clock position), each import specifier of
the second invocation carries its own current-time tag; whenever those tagged
specifiers are new to the cache (distinct time markers), every fragment load
of the second invocation is a fresh evaluation against the current disk
contents, so the second aggregate reflects an edit made between the
invocations and never returns a value cached from the first. -/
theorem c5_fresh_reload (files0 : List String) (i : Nat)
    (f1 f2 : String → JVal) (base2 : List (String × JVal)) (pkg1 pkg2 : JVal)
    (rnd1 rnd2 : JVal → JVal → Except String Unit) (clock1 clock2 : Nat → Nat)
    (editFl : String)
    (hfind : findIndexJs (fun fl => jsIncludes fl "index") files0 = (i : Int))
    (hnd2 : (runSpecs clock2
        (build ⟨.ok files0, .ok pkg1, fun p => .ok (f1 p), rnd1, clock1⟩ [] 0).clockIdx
        (files0.getD i "") (files0.take i ++ files0.drop (i + 1))).Nodup)
    (hfresh : ∀ s ∈ runSpecs clock2
        (build ⟨.ok files0, .ok pkg1, fun p => .ok (f1 p), rnd1, clock1⟩ [] 0).clockIdx
        (files0.getD i "") (files0.take i ++ files0.drop (i + 1)),
        ∀ en ∈ (build ⟨.ok files0, .ok pkg1, fun p => .ok (f1 p), rnd1,
          clock1⟩ [] 0).cache, en.1 ≠ s)
    (hobj2 : f2 (joinUp (files0.getD i "")) = .obj base2)
    (hbn : ((files0.take i ++ files0.drop (i + 1)).map basenameNoExt).Nodup)
    (hmem : editFl ∈ files0.take i ++ files0.drop (i + 1)) :
    (build ⟨.ok files0, .ok pkg2, fun p => .ok (f2 p), rnd2, clock2⟩
        (build ⟨.ok files0, .ok pkg1, fun p => .ok (f1 p), rnd1, clock1⟩ [] 0).cache
        (build ⟨.ok files0, .ok pkg1, fun p => .ok (f1 p), rnd1, clock1⟩
          [] 0).clockIdx).result = .ok () ∧
    ∃ g2, (build ⟨.ok files0, .ok pkg2, fun p => .ok (f2 p), rnd2, clock2⟩
        (build ⟨.ok files0, .ok pkg1, fun p => .ok (f1 p), rnd1, clock1⟩ [] 0).cache
        (build ⟨.ok files0, .ok pkg1, fun p => .ok (f1 p), rnd1, clock1⟩
          [] 0).clockIdx).guide = some g2 ∧
      g2.getField (basenameNoExt editFl) = some (f2 (joinUp editFl)) := by
  have hsplit := splice_found hfind
  have hb := build_ok_spec files0 (files0.take i ++ files0.drop (i + 1))
    (files0.getD i "") f2 base2 pkg2 rnd2 clock2
    (build ⟨.ok files0, .ok pkg1, fun p => .ok (f1 p), rnd1, clock1⟩ [] 0).cache
    (build ⟨.ok files0, .ok pkg1, fun p => .ok (f1 p), rnd1, clock1⟩ [] 0).clockIdx
    hsplit hobj2 hnd2 hfresh
  rw [hb]
  refine ⟨rfl, _, rfl, ?_⟩
  rw [getField_obj, foldSetFields_lookup, find_key_unique_reverse editFl _ hbn hmem]

/-- C5 (witness): after editing `button.js` between the two canonical
invocations (second clock strictly later), the second invocation's aggregate
holds the new value `atom 41`, not the first run's cached `atom 1`. -/
theorem c5_fresh_reload_witness :
    findIndexJs (fun fl => jsIncludes fl "index") filesA = ((0 : Nat) : Int) ∧
    (build envB (build envA [] 0).cache (build envA [] 0).clockIdx).result = .ok () ∧
    ∃ g2, (build envB (build envA [] 0).cache (build envA [] 0).clockIdx).guide =
        some g2 ∧
      g2.getField "button" = some (.atom 41) := by
  have h := c5_fresh_reload filesA 0 diskA diskB [("base", .atom 0)] (.atom 7) (.atom 7)
    (fun _ _ => .ok ()) (fun _ _ => .ok ()) (fun j => j) (fun j => 100 + j)
    "src/guide/button.js" (by decide) (by decide) (by decide) rfl (by decide) (by decide)
  exact ⟨by decide, h.1, h.2⟩

/-- C9: module-load failures are not caught: when the glob throws, when
reading/parsing `package.json` throws, when evaluating the index module
throws, or when evaluating any fragment module throws (the index export being
an object, so the loop reaches that import), the error propagates out of the
task and `done()` is never called, so the enclosing composition fails —
unlike render-collaborator failures. -/
theorem c9_load_errors_propagate :
    (∀ (env : GuideEnv) (cache0 : Cache) (k0 : Nat) (e : String),
        env.globResult = .error e →
        (build env cache0 k0).result = .error e ∧
          (build env cache0 k0).doneCalls = 0) ∧
    (∀ (env : GuideEnv) (cache0 : Cache) (k0 : Nat) (files0 : List String) (e : String),
        env.globResult = .ok files0 → env.pkgResult = .error e →
        (build env cache0 k0).result = .error e ∧
          (build env cache0 k0).doneCalls = 0) ∧
    (∀ (files0 : List String) (i : Nat) (ev : String → Except String JVal) (pkg : JVal)
        (rnd : JVal → JVal → Except String Unit) (clock : Nat → Nat) (k0 : Nat)
        (e : String),
        findIndexJs (fun fl => jsIncludes fl "index") files0 = (i : Int) →
        ev (joinUp (files0.getD i "")) = .error e →
        (build ⟨.ok files0, .ok pkg, ev, rnd, clock⟩ [] k0).result = .error e ∧
          (build ⟨.ok files0, .ok pkg, ev, rnd, clock⟩ [] k0).doneCalls = 0) ∧
    (∀ (files0 : List String) (i : Nat) (f : String → JVal)
        (base : List (String × JVal)) (bad : String) (pkg : JVal)
        (rnd : JVal → JVal → Except String Unit) (clock : Nat → Nat) (k0 : Nat)
        (e : String),
        findIndexJs (fun fl => jsIncludes fl "index") files0 = (i : Int) →
        bad ∈ files0.take i ++ files0.drop (i + 1) →
        files0.getD i "" ≠ bad →
        f (joinUp (files0.getD i "")) = .obj base →
        (runSpecs clock k0 (files0.getD i "")
          (files0.take i ++ files0.drop (i + 1))).Nodup →
        (build ⟨.ok files0, .ok pkg,
            fun p => if p = joinUp bad then .error e else .ok (f p),
            rnd, clock⟩ [] k0).result = .error e ∧
          (build ⟨.ok files0, .ok pkg,
            fun p => if p = joinUp bad then .error e else .ok (f p),
            rnd, clock⟩ [] k0).doneCalls = 0) := by
  refine ⟨?_, ?_, ?_, ?_⟩
  · intro env cache0 k0 e hglob
    rw [build, hglob]
    exact ⟨rfl, rfl⟩
  · intro env cache0 k0 files0 e hglob hpkg
    rw [build, hglob]
    dsimp only
    rw [hpkg]
    exact ⟨rfl, rfl⟩
  · intro files0 i ev pkg rnd clock k0 e hfind hbad
    have hsplit := splice_found hfind
    have himp : importFresh ev [] (joinUp (files0.getD i "")) (clock k0) =
        .error e := by
      simp only [importFresh, List.find?_nil]
      rw [hbad]
    rw [build]
    dsimp only
    rw [hsplit]
    dsimp only
    rw [himp]
    exact ⟨rfl, rfl⟩
  · intro files0 i f base bad pkg rnd clock k0 e hfind hmem hneq hobj hnd
    have hsplit := splice_found hfind
    have hjne : joinUp (files0.getD i "") ≠ joinUp bad :=
      fun h => hneq (joinUp_inj h)
    have hds := List.nodup_cons.mp (by rw [runSpecs] at hnd; exact hnd)
    have himp : importFresh
        (fun p => if p = joinUp bad then .error e else .ok (f p)) []
        (joinUp (files0.getD i "")) (clock k0) =
        .ok (f (joinUp (files0.getD i "")),
          [(specOf (joinUp (files0.getD i "")) (clock k0),
            f (joinUp (files0.getD i "")))]) := by
      simp only [importFresh, List.find?_nil]
      rw [if_neg hjne]
      rfl
    have hload := loadFragments_err
      ⟨.ok files0, .ok pkg,
        fun p => if p = joinUp bad then .error e else .ok (f p), rnd, clock⟩
      f bad e (fun p hp => by simp [hp]) (by simp)
      (files0.take i ++ files0.drop (i + 1)) base
      [(specOf (joinUp (files0.getD i "")) (clock k0), f (joinUp (files0.getD i "")))]
      (k0 + 1) [(joinUp (files0.getD i ""), clock k0)] hmem hds.2
      (by
        intro s hs en hen
        have : en = (specOf (joinUp (files0.getD i "")) (clock k0),
            f (joinUp (files0.getD i ""))) := by simpa using hen
        subst this
        intro hcontra
        have hc2 : specOf (joinUp (files0.getD i "")) (clock k0) = s := hcontra
        subst hc2
        exact hds.1 hs)
    rw [hobj] at hload
    rw [build]
    dsimp only
    rw [hsplit]
    dsimp only
    rw [himp]
    dsimp only
    rw [hobj, hload]
    exact ⟨rfl, rfl⟩

/-- C9 (witness): a glob failure, a `package.json` failure, an index-module
failure, and a fragment-module failure each propagate with `done()` never
called. -/
theorem c9_load_errors_propagate_witness :
    (build envGlobBoom [] 0).result = .error "glob boom" ∧
    (build envGlobBoom [] 0).doneCalls = 0 ∧
    (build envPkgBoom [] 0).result = .error "pkg boom" ∧
    (build envPkgBoom [] 0).doneCalls = 0 ∧
    (build ⟨.ok filesA, .ok (.atom 7),
        fun p => if p = joinUp "src/guide/index.js" then .error "mod boom"
          else .ok (diskA p),
        fun _ _ => .ok (), fun j => j⟩ [] 0).result = .error "mod boom" ∧
    (build ⟨.ok filesA, .ok (.atom 7),
        fun p => if p = joinUp "src/guide/index.js" then .error "mod boom"
          else .ok (diskA p),
        fun _ _ => .ok (), fun j => j⟩ [] 0).doneCalls = 0 ∧
    (build ⟨.ok filesA, .ok (.atom 7),
        fun p => if p = joinUp "src/guide/card.js" then .error "frag boom"
          else .ok (diskA p),
        fun _ _ => .ok (), fun j => j⟩ [] 0).result = .error "frag boom" ∧
    (build ⟨.ok filesA, .ok (.atom 7),
        fun p => if p = joinUp "src/guide/card.js" then .error "frag boom"
          else .ok (diskA p),
        fun _ _ => .ok (), fun j => j⟩ [] 0).doneCalls = 0 := by
  have h1 := c9_load_errors_propagate.1 envGlobBoom [] 0 "glob boom" rfl
  have h2 := c9_load_errors_propagate.2.1 envPkgBoom [] 0 filesA "pkg boom" rfl rfl
  have h3 := c9_load_errors_propagate.2.2.1 filesA 0
    (fun p => if p = joinUp "src/guide/index.js" then .error "mod boom"
      else .ok (diskA p))
    (.atom 7) (fun _ _ => .ok ()) (fun j => j) 0 "mod boom" (by decide) rfl
  have h4 := c9_load_errors_propagate.2.2.2 filesA 0 diskA [("base", .atom 0)]
    "src/guide/card.js" (.atom 7) (fun _ _ => .ok ()) (fun j => j) 0 "frag boom"
    (by decide) (by decide) (by decide) rfl (by decide)
  exact ⟨h1.1, h1.2, h2.1, h2.2, h3.1, h3.2, h4.1, h4.2⟩
